import Mathlib

set_option maxHeartbeats 1000000

/-!
Shallow embedding of the `solana-verifiable-build` CLI core
(`src/main.rs` and `src/api_client.rs`) together with theorems settling
the specification claims about it.

External collaborators (HTTP transport, Docker, RPC, the filesystem and
the serde JSON parser) are modelled as explicit inputs: each run of a
pipeline is a pure function of the outcomes those collaborators would
deliver, returning the list of observable events (queries, sleeps,
prints, signals, temp-dir removal) together with the final outcome,
where the outcome distinguishes a Rust panic from an ordinary
`Result` value.
-/

namespace SolanaVerify

/-- Outcome of running a piece of Rust code: either a panic (process
abort, e.g. from `unwrap` or an out-of-bounds slice) or a normal value. -/
inductive Outcome (α : Type) where
  | panics (msg : String)
  | ok (a : α)
deriving Repr, DecidableEq

/-- True exactly on the `panics` constructor. -/
def Outcome.isPanics {α : Type} : Outcome α → Bool
  | .panics _ => true
  | .ok _ => false

/-- True exactly when the outcome is a normal `Err` result (no panic,
but the Rust function returned an error value). -/
def Outcome.isErrResult {α β : Type} : Outcome (Except α β) → Bool
  | .ok (.error _) => true
  | _ => false

/-! ## Hash Normalizer (`get_binary_hash`, `src/main.rs` 165-175)

The Rust code strips the contiguous trailing run of zero bytes
(`rev().skip_while(|&x| x == 0)` then `rev()` again) and hashes the
remaining prefix with `sha256::digest`, yielding a lowercase hex
string.  Bytes are modelled as `Nat` (the Rust `u8` values always lie
below 256). -/

/-- The normalization step of `get_binary_hash`: reverse, drop the
leading zeros of the reversed list (= trailing zeros of the original),
reverse back. -/
def stripTrailingZeros (program_data : List Nat) : List Nat :=
  (program_data.reverse.dropWhile (fun x => x == 0)).reverse

/-- 2^32, the modulus for 32-bit words inside SHA-256. -/
def M32 : Nat := 4294967296

/-- Right rotation of a 32-bit word. -/
def rotr32 (n x : Nat) : Nat := ((x >>> n) ||| (x <<< (32 - n))) % M32

/-- SHA-256 `Ch` function. -/
def chS (e f g : Nat) : Nat := (e &&& f) ^^^ ((e ^^^ 4294967295) &&& g)

/-- SHA-256 `Maj` function. -/
def majS (a b c : Nat) : Nat := (a &&& b) ^^^ (a &&& c) ^^^ (b &&& c)

/-- SHA-256 big sigma 0. -/
def bsig0 (x : Nat) : Nat := rotr32 2 x ^^^ rotr32 13 x ^^^ rotr32 22 x

/-- SHA-256 big sigma 1. -/
def bsig1 (x : Nat) : Nat := rotr32 6 x ^^^ rotr32 11 x ^^^ rotr32 25 x

/-- SHA-256 small sigma 0. -/
def ssig0 (x : Nat) : Nat := rotr32 7 x ^^^ rotr32 18 x ^^^ (x >>> 3)

/-- SHA-256 small sigma 1. -/
def ssig1 (x : Nat) : Nat := rotr32 17 x ^^^ rotr32 19 x ^^^ (x >>> 10)

/-- The 64 SHA-256 round constants, written in decimal. -/
def sha_K : List Nat :=
  [1116352408, 1899447441, 3049323471, 3921009573,
   961987163, 1508970993, 2453635748, 2870763221,
   3624381080, 310598401, 607225278, 1426881987,
   1925078388, 2162078206, 2614888103, 3248222580,
   3835390401, 4022224774, 264347078, 604807628,
   770255983, 1249150122, 1555081692, 1996064986,
   2554220882, 2821834349, 2952996808, 3210313671,
   3336571891, 3584528711, 113926993, 338241895,
   666307205, 773529912, 1294757372, 1396182291,
   1695183700, 1986661051, 2177026350, 2456956037,
   2730485921, 2820302411, 3259730800, 3345764771,
   3516065817, 3600352804, 4094571909, 275423344,
   430227734, 506948616, 659060556, 883997877,
   958139571, 1322822218, 1537002063, 1747873779,
   1955562222, 2024104815, 2227730452, 2361852424,
   2428436474, 2756734187, 3204031479, 3329325298]

/-- The eight 32-bit working variables of the SHA-256 compression
function. -/
structure Digest8 where
  a : Nat
  b : Nat
  c : Nat
  d : Nat
  e : Nat
  f : Nat
  g : Nat
  h : Nat
deriving Repr, DecidableEq

/-- SHA-256 initial hash value, written in decimal. -/
def shaInit : Digest8 :=
  ⟨1779033703, 3144134277, 1013904242, 2773480762,
   1359893119, 2600822924, 528734635, 1541459225⟩

/-- The 64-bit big-endian byte encoding of a bit length. -/
def bytesBE8 (v : Nat) : List Nat :=
  [(v >>> 56) % 256, (v >>> 48) % 256, (v >>> 40) % 256, (v >>> 32) % 256,
   (v >>> 24) % 256, (v >>> 16) % 256, (v >>> 8) % 256, v % 256]

/-- SHA-256 message padding: append `0x80`, zero bytes up to 56 mod 64,
then the message bit length as 8 big-endian bytes. -/
def padMessage (msg : List Nat) : List Nat :=
  msg ++ 128 :: List.replicate ((119 - msg.length % 64) % 64) 0 ++ bytesBE8 (msg.length * 8)

/-- Group bytes into 32-bit big-endian words. -/
def toWordsBE : List Nat → List Nat
  | b0 :: b1 :: b2 :: b3 :: rest =>
    (((b0 % 256) <<< 24) ||| ((b1 % 256) <<< 16) ||| ((b2 % 256) <<< 8) ||| (b3 % 256))
      :: toWordsBE rest
  | _ => []

/-- Split a word list into blocks of 16 words. -/
def toBlocks (ws : List Nat) : List (List Nat) :=
  if h : ws = [] then []
  else ws.take 16 :: toBlocks (ws.drop 16)
termination_by ws.length
decreasing_by
  have hp : 0 < ws.length := List.length_pos.mpr h
  simp only [List.length_drop]
  omega

/-- Extend a 16-word block to the 64-word message schedule. -/
def extendW (w : List Nat) : List Nat :=
  if h : 64 ≤ w.length then w
  else
    extendW (w ++ [(ssig1 (w.getD (w.length - 2) 0) + w.getD (w.length - 7) 0 +
      ssig0 (w.getD (w.length - 15) 0) + w.getD (w.length - 16) 0) % M32])
termination_by 64 - w.length
decreasing_by
  simp only [List.length_append, List.length_cons, List.length_nil]
  omega

/-- One SHA-256 compression round. -/
def roundStep (s : Digest8) (kw : Nat × Nat) : Digest8 :=
  let t1 := (s.h + bsig1 s.e + chS s.e s.f s.g + kw.1 + kw.2) % M32
  let t2 := (bsig0 s.a + majS s.a s.b s.c) % M32
  ⟨(t1 + t2) % M32, s.a, s.b, s.c, (s.d + t1) % M32, s.e, s.f, s.g⟩

/-- Process one 16-word block: run the 64 rounds over the extended
schedule and add the result to the incoming state. -/
def processBlock (st : Digest8) (block : List Nat) : Digest8 :=
  let s := (sha_K.zip (extendW block)).foldl roundStep st
  ⟨(st.a + s.a) % M32, (st.b + s.b) % M32, (st.c + s.c) % M32, (st.d + s.d) % M32,
   (st.e + s.e) % M32, (st.f + s.f) % M32, (st.g + s.g) % M32, (st.h + s.h) % M32⟩

/-- A hex digit character, lowercase. -/
def hexDigit (n : Nat) : Char :=
  if n < 10 then Char.ofNat (48 + n) else Char.ofNat (87 + n)

/-- The 8-hex-digit rendering of a 32-bit word. -/
def hexWord32 (w : Nat) : String :=
  String.mk ((List.range 8).map (fun i => hexDigit ((w >>> (4 * (7 - i))) % 16)))

/-- The full SHA-256 digest of a byte list as a lowercase hex string
(the behavior of `digest` from the `sha256` crate on a byte slice). -/
def sha256hex (msg : List Nat) : String :=
  let d := (toBlocks (toWordsBE (padMessage msg))).foldl processBlock shaInit
  hexWord32 d.a ++ hexWord32 d.b ++ hexWord32 d.c ++ hexWord32 d.d ++
    hexWord32 d.e ++ hexWord32 d.f ++ hexWord32 d.g ++ hexWord32 d.h

/-- The function `get_binary_hash` (src/main.rs 165-175): strip the contiguous run
of trailing zero bytes, then SHA-256 the remaining prefix. -/
def get_binary_hash (program_data : List Nat) : String :=
  sha256hex (stripTrailingZeros program_data)

/-! ## Data model (`api_models.rs`, referenced by `api_client.rs`)

The type declarations live in `src/api_models.rs`, which is not part of
the provided sources; their shapes are fully determined by how
`api_client.rs` constructs and reads them, together with the data-model
section of the spec. -/

/-- The four-state job status taxonomy (spec section 3; used throughout
`api_client.rs`). -/
inductive JobStatus where
  | inProgress
  | completed
  | failed
  | unknown
deriving Repr, DecidableEq

/-- Modelled from the spec: `JobVerificationResponse` (declared in the
missing `api_models.rs`) carries the status plus the outcome fields the
spec lists for terminal states — failure `message`, `on_chain_hash`,
`executable_hash` and `repo_url` — all read by `send_job_to_remote`. -/
structure JobVerificationResponse where
  status : JobStatus
  message : String
  on_chain_hash : String
  executable_hash : String
  repo_url : String
deriving Repr, DecidableEq

/-- The `JobResponse` shape as constructed by `check_job_status`: the mapped
status and an optional payload (the source spells the field `respose`). -/
structure JobResponse where
  status : JobStatus
  respose : Option JobVerificationResponse
deriving Repr, DecidableEq

/-- Modelled from the spec: `VerifyResponse` (declared in the missing
`api_models.rs`) wraps the `request_id` returned on successful
submission, the only field `send_job_to_remote` reads. -/
structure VerifyResponse where
  request_id : String
deriving Repr, DecidableEq

/-- A shallow model of `serde_json::Value`. -/
inductive Json where
  | null
  | bool (b : Bool)
  | num (n : Int)
  | str (s : String)
  | arr (elems : List Json)
  | obj (fields : List (String × Json))

/-- Indexing `value["key"]` on a `serde_json::Value`: the value of the field when the
value is an object containing the key, `Null` otherwise. -/
def Json.get (j : Json) (key : String) : Json :=
  match j with
  | .obj fields =>
    match fields.find? (fun p => p.1 == key) with
    | some p => p.2
    | none => .null
  | _ => .null

/-- The `Value::as_bool` accessor. -/
def Json.asBool : Json → Option Bool
  | .bool b => some b
  | _ => none

/-- The `Value::as_str` accessor. -/
def Json.asStr : Json → Option String
  | .str s => some s
  | _ => none

/-- Comparing `value == "text"`: the serde `PartialEq<str>` instance compares true exactly
for a string value with that content. -/
def Json.eqStr (j : Json) (s : String) : Bool :=
  match j with
  | .str t => t == s
  | _ => false

/-! ## Observable events

Each embedded operation returns the list of its observable effects, in
order, alongside its outcome. -/

/-- Observable events of a run.  `query` records a status query
together with the status the client parsed out of the reply (`none`
when the query never produced a parsed status).  `tick` stands for one
spinner animation step of the Progress Reporter (the `pb.inc(1)` plus
its 100 ms sleep). -/
inductive Ev where
  | query (observed : Option JobStatus)
  | sleep (millis : Nat)
  | sendSignal (b : Bool)
  | joinReporter
  | reporterFinal (b : Bool)
  | tick
  | print (line : String)
  | rmTempDir
deriving Repr, DecidableEq

/-- True on status-query events. -/
def Ev.isQuery : Ev → Bool
  | .query _ => true
  | _ => false

/-- True on sleep events. -/
def Ev.isSleep : Ev → Bool
  | .sleep _ => true
  | _ => false

/-- True on terminal-signal send events. -/
def Ev.isSend : Ev → Bool
  | .sendSignal _ => true
  | _ => false

/-- True on the join-the-Reporter event. -/
def Ev.isJoin : Ev → Bool
  | .joinReporter => true
  | _ => false

/-- True on print events. -/
def Ev.isPrint : Ev → Bool
  | .print _ => true
  | _ => false

/-- True on the final-message event of the Reporter. -/
def Ev.isRepFinal : Ev → Bool
  | .reporterFinal _ => true
  | _ => false

/-- True on events only the Reporter thread emits. -/
def Ev.isRepEv : Ev → Bool
  | .reporterFinal _ => true
  | .tick => true
  | _ => false

/-- True on a query event whose parsed status is terminal
(`Completed`, `Failed` or `Unknown`). -/
def Ev.isTerminalQuery : Ev → Bool
  | .query (some .inProgress) => false
  | .query (some _) => true
  | _ => false

/-! ## Job Status Poller (`check_job_status`, `src/api_client.rs` 185-223) -/

/-- The possible deliveries of one `GET /job/:id` round trip, as seen
by `check_job_status`: the send itself fails at the transport level, or
a success-status response arrives whose body parse succeeds or fails,
or a non-success-status response arrives with some body text. -/
inductive PollTransport where
  | sendFailure (msg : String)
  | success (parse : Except String JobVerificationResponse)
  | httpError (body : String)
deriving Repr

/-- The function `check_job_status`: one status query.  The `.send().await.unwrap()`
panics on a transport send failure; a body-parse failure propagates as
an error via `?`; on `InProgress` the function itself sleeps 5 seconds
before returning a payload-free response; terminal statuses return the
parsed payload; a non-success HTTP status becomes an error result. -/
def check_job_status (t : PollTransport) : List Ev × Outcome (Except String JobResponse) :=
  match t with
  | .sendFailure msg => ([.query none], .panics msg)
  | .success (.error e) => ([.query none], .ok (.error e))
  | .success (.ok r) =>
    match r.status with
    | .inProgress =>
      ([.query (some .inProgress), .sleep 5000], .ok (.ok ⟨.inProgress, none⟩))
    | .completed => ([.query (some .completed)], .ok (.ok ⟨.completed, some r⟩))
    | .failed => ([.query (some .failed)], .ok (.ok ⟨.failed, some r⟩))
    | .unknown => ([.query (some .unknown)], .ok (.ok ⟨.unknown, some r⟩))
  | .httpError body =>
    ([.query none],
     .ok (.error ("Encountered an error while attempting to check job status : " ++ body)))

/-- The polling loop of `send_job_to_remote` (src/api_client.rs
109-148), run against a finite script of service deliveries, one per
iteration.  Returns the events of the loop and `some` outcome when the
loop finished within the script (`none` means the script ran out while
the loop would still be polling).  On `InProgress` the loop sleeps a
further 10 seconds and polls again; on a terminal status it signals the
Reporter, joins it, unwraps the payload where the source does, prints
the report and stops. -/
def poll_loop (program_id : String) : List PollTransport → List Ev × Option (Outcome (Except String Unit))
  | [] => ([], none)
  | t :: rest =>
    let step := check_job_status t
    match step.2 with
    | .panics m => (step.1, some (.panics m))
    | .ok (.error e) => (step.1, some (.ok (.error e)))
    | .ok (.ok jr) =>
      match jr.status with
      | .inProgress =>
        let tail := poll_loop program_id rest
        (step.1 ++ Ev.sleep 10000 :: tail.1, tail.2)
      | .completed =>
        match jr.respose with
        | none =>
          (step.1 ++ [.sendSignal true, .joinReporter],
           some (.panics "called Option::unwrap on a None value"))
        | some r =>
          (step.1 ++ [.sendSignal true, .joinReporter,
            .print ("Program " ++ program_id ++ " has been successfully verified. ✅"),
            .print "\nThe provided GitHub build matches the on-chain hash:",
            .print ("On Chain Hash: " ++ r.on_chain_hash),
            .print ("Executable Hash: " ++ r.executable_hash),
            .print ("Repo URL: " ++ r.repo_url)],
           some (.ok (.ok ())))
      | .failed =>
        match jr.respose with
        | none =>
          (step.1 ++ [.sendSignal false, .joinReporter],
           some (.panics "called Option::unwrap on a None value"))
        | some r =>
          (step.1 ++ [.sendSignal false, .joinReporter,
            .print ("Program " ++ program_id ++ " has not been verified. ❌"),
            .print ("Error message: " ++ r.message)],
           some (.ok (.ok ())))
      | .unknown =>
        (step.1 ++ [.sendSignal false, .joinReporter,
          .print ("Program " ++ program_id ++ " has not been verified. ❌")],
         some (.ok (.ok ())))

/-! ## Verification Job Client (`send_job_to_remote`, `src/api_client.rs` 64-183) -/

/-- The possible deliveries of the `POST /verify` round trip: a
success-status response (with the parse outcome of its body and the
script of subsequent poll deliveries), a 409 conflict (with the parse
outcome of its body as loose JSON), or any other non-success response
with its body text. -/
inductive SubmitTransport where
  | success (parse : Except String VerifyResponse) (script : List PollTransport)
  | conflict409 (bodyParse : Except String Json)
  | otherError (body : String)

/-- Conversion of `Option<String>` to the serde JSON wire value (`None` serializes as
`null`). -/
def optStrJson : Option String → Json
  | none => .null
  | some s => .str s

/-- The `mount_path` normalization in the request body
(src/api_client.rs 87-91): the empty relative mount path is sent as
`None`, anything else as `Some`. -/
def mount_path_wire (relative_mount_path : String) : Option String :=
  if relative_mount_path.isEmpty then none else some relative_mount_path

/-- The JSON request body built by `send_job_to_remote`
(src/api_client.rs 81-94). -/
def verificationRequestJson (repo_url : String) (commit_hash : Option String)
    (program_id : String) (library_name : Option String) (bpf_flag : Bool)
    (relative_mount_path : String) (base_image : Option String)
    (cargo_args : List String) : Json :=
  .obj [("repository", .str repo_url),
        ("commit_hash", optStrJson commit_hash),
        ("program_id", .str program_id),
        ("lib_name", optStrJson library_name),
        ("bpf_flag", .bool bpf_flag),
        ("mount_path", optStrJson (mount_path_wire relative_mount_path)),
        ("base_image", optStrJson base_image),
        ("cargo_args", .arr (cargo_args.map Json.str))]

/-- The function `send_job_to_remote` after the POST: on a success status, parse the
`VerifyResponse` (`?` on failure) and run the polling loop; on a 409,
parse the body as loose JSON (`?` on failure) and branch on
`is_verified` / `status == "error"` without ever polling; on any other
status, print to stderr and fail with the body. -/
def send_job_to_remote (program_id : String) (t : SubmitTransport) :
    List Ev × Option (Outcome (Except String Unit)) :=
  match t with
  | .success (.error e) _ => ([], some (.ok (.error e)))
  | .success (.ok _vr) script =>
    let tail := poll_loop program_id script
    (Ev.print "Verification request sent. ✅" ::
       Ev.print "Verification in progress... ⏳" :: tail.1, tail.2)
  | .conflict409 (.error e) => ([], some (.ok (.error e)))
  | .conflict409 (.ok j) =>
    match (j.get "is_verified").asBool with
    | some true =>
      ([.print ("Program " ++ program_id ++ " has already been verified. ✅"),
        .print ("On Chain Hash: " ++ ((j.get "on_chain_hash").asStr.getD "")),
        .print ("Executable Hash: " ++ ((j.get "executable_hash").asStr.getD ""))],
       some (.ok (.ok ())))
    | some false =>
      ([.print "This request has already been processed.",
        .print ("Program " ++ program_id ++ " has not been verified. ❌")],
       some (.ok (.ok ())))
    | none =>
      if (j.get "status").eqStr "error" then
        ([.print ("Error message: " ++ ((j.get "error").asStr.getD ""))],
         some (.ok (.ok ())))
      else
        ([.print "This request has already been processed."], some (.ok (.ok ())))
  | .otherError body =>
    ([.print "Encountered an error while attempting to send the job to remote"],
     some (.ok (.error body)))

/-- The maximal run of non-query events following each
`InProgress`-reporting query of a trace: the events the poller performs
after learning the job is in progress and before the next status query
is issued. -/
def afterIPsegs : List Ev → List (List Ev)
  | [] => []
  | .query (some .inProgress) :: rest =>
    rest.takeWhile (fun e => !e.isQuery) :: afterIPsegs rest
  | _ :: rest => afterIPsegs rest

/-! ## On-chain account slicing and the main.rs pipelines -/

/-- Modelled from the spec: the fixed metadata-size offset for buffer
accounts, `UpgradeableLoaderState::size_of_buffer_metadata()` from the
external solana-sdk collaborator (4-byte discriminant plus the
1 + 32 byte optional authority). -/
def size_of_buffer_metadata : Nat := 37

/-- Modelled from the spec: the (different) fixed metadata-size offset
for program-data accounts,
`UpgradeableLoaderState::size_of_programdata_metadata()` from the
external solana-sdk collaborator (4-byte discriminant, 8-byte slot,
1 + 32 byte optional authority). -/
def size_of_programdata_metadata : Nat := 45

/-- Rust slicing `&data[offset..]`: the tail from `offset` when
`offset <= len`, a panic otherwise (no bounds check in the source). -/
def sliceFrom (offset : Nat) (data : List Nat) : Outcome (List Nat) :=
  if offset ≤ data.length then .ok (data.drop offset)
  else .panics "range start index out of range for slice"

/-- The `GetBufferHash` subcommand arm (src/main.rs 91-101): fetch the
buffer account (`?` on RPC failure), slice at the buffer metadata
offset, hash and print. -/
def get_buffer_hash_cmd (accountData : Except String (List Nat)) :
    List Ev × Outcome (Except String Unit) :=
  match accountData with
  | .error e => ([], .ok (.error e))
  | .ok data =>
    match sliceFrom size_of_buffer_metadata data with
    | .panics m => ([], .panics m)
    | .ok sliced => ([.print (get_binary_hash sliced)], .ok (.ok ()))

/-- The `GetProgramHash` subcommand arm (src/main.rs 102-112): fetch
the program-data account (`?` on RPC failure), slice at the
program-data metadata offset, hash and print. -/
def get_program_hash_cmd (accountData : Except String (List Nat)) :
    List Ev × Outcome (Except String Unit) :=
  match accountData with
  | .error e => ([], .ok (.error e))
  | .ok data =>
    match sliceFrom size_of_programdata_metadata data with
    | .panics m => ([], .panics m)
    | .ok sliced => ([.print (get_binary_hash sliced)], .ok (.ok ()))

/-- The collaborator outcomes a `VerifyFromRepo` run consumes, in the
order the source consults them: `basename`, `git clone`, `cd`, the
Docker build, the `find` for the built `.so`, the local file read
inside `get_file_hash`, the RPC account fetch, and the `rm -rf` of the
temporary clone. -/
structure RepoEnv where
  basenameResult : Except String String
  cloneResult : Except String String
  cdResult : Except String String
  buildResult : Except String Unit
  findResult : Except String String
  fileRead : Except String (List Nat)
  accountData : Except String (List Nat)
  rmResult : Except String String
deriving Repr

/-- The `VerifyFromRepo` subcommand arm (src/main.rs 113-161): clone,
build, hash the built binary, fetch and hash the on-chain program data,
print both hashes, remove the temporary clone, then compare.  Every
`?` failure returns early; the removal is only reached after every
earlier step succeeded. -/
def verify_from_repo (solana_program_path : String) (env : RepoEnv) :
    List Ev × Outcome (Except String Unit) :=
  match env.basenameResult with
  | .error e => ([], .ok (.error e))
  | .ok base_name =>
  match env.cloneResult with
  | .error e => ([], .ok (.error e))
  | .ok _ =>
  match env.cdResult with
  | .error e => ([], .ok (.error e))
  | .ok _ =>
  let build_path := "/tmp/solana-verify/" ++ base_name ++ "/" ++ solana_program_path
  let evs0 := [Ev.print ("Build path: \"" ++ build_path ++ "\""),
               Ev.print ("Mounting path: " ++ build_path)]
  match env.buildResult with
  | .error e => (evs0, .ok (.error e))
  | .ok _ =>
  match env.findResult with
  | .error e => (evs0, .ok (.error e))
  | .ok _executable_path =>
  match env.fileRead with
  | .error e => (evs0, .ok (.error e))
  | .ok fileBytes =>
  let build_hash := get_binary_hash fileBytes
  match env.accountData with
  | .error e => (evs0, .ok (.error e))
  | .ok data =>
  match sliceFrom size_of_programdata_metadata data with
  | .panics m => (evs0, .panics m)
  | .ok sliced =>
  let program_hash := get_binary_hash sliced
  let evs1 := evs0 ++ [Ev.print ("Executable Program Hash from repo: " ++ build_hash),
                       Ev.print ("On-chain Program Hash: " ++ program_hash),
                       Ev.rmTempDir]
  match env.rmResult with
  | .error e => (evs1, .ok (.error e))
  | .ok _ =>
  if program_hash ≠ build_hash then
    (evs1 ++ [Ev.print "Executable hash mismatch"], .ok (.error "Executable hash mismatch"))
  else
    (evs1 ++ [Ev.print "Executable matches on-chain program data ✅"], .ok (.ok ()))

/-- The collaborator outcomes a `VerifyFromImage` run consumes, in the
order the source consults them: `docker run`, `docker cp`, the local
file read inside `get_file_hash`, the RPC account fetch, `docker kill`
and the `rm` of the copied file. -/
structure ImageEnv where
  dockerRun : Except String String
  dockerCp : Except String Unit
  fileRead : Except String (List Nat)
  accountData : Except String (List Nat)
  dockerKill : Except String String
  rmFile : Except String String
deriving Repr

/-- The function `verify_from_image` (src/main.rs 207-245): copy the executable out
of the image, hash it, fetch and hash the on-chain program data, print
both hashes, clean up the container and file, then compare. -/
def verify_from_image (executable_path image network program_id : String)
    (env : ImageEnv) : List Ev × Outcome (Except String Unit) :=
  let evs0 := [Ev.print ("Verifying image: \"" ++ image ++ "\", on network \"" ++ network ++
                 "\" against program ID " ++ program_id),
               Ev.print ("Executable path in container: \"" ++ executable_path ++ "\""),
               Ev.print " "]
  match env.dockerRun with
  | .error e => (evs0, .ok (.error e))
  | .ok _container_id =>
  match env.dockerCp with
  | .error e => (evs0, .ok (.error e))
  | .ok _ =>
  match env.fileRead with
  | .error e => (evs0, .ok (.error e))
  | .ok fileBytes =>
  let executable_hash := get_binary_hash fileBytes
  match env.accountData with
  | .error e => (evs0, .ok (.error e))
  | .ok data =>
  match sliceFrom size_of_programdata_metadata data with
  | .panics m => (evs0, .panics m)
  | .ok sliced =>
  let program_hash := get_binary_hash sliced
  let evs1 := evs0 ++ [Ev.print ("Executable hash: " ++ executable_hash),
                       Ev.print ("Program hash: " ++ program_hash)]
  match env.dockerKill with
  | .error e => (evs1, .ok (.error e))
  | .ok _ =>
  match env.rmFile with
  | .error e => (evs1, .ok (.error e))
  | .ok _ =>
  if program_hash ≠ executable_hash then
    (evs1 ++ [Ev.print "Executable hash mismatch"], .ok (.error "Executable hash mismatch"))
  else
    (evs1 ++ [Ev.print "Executable matches on-chain program data ✅"], .ok (.ok ()))

/-! ## Two-thread interleaving model (Poller/Orchestrator + Progress Reporter)

The polling loop runs on the main thread; `loading_animation`
(src/api_client.rs 21-60) runs on a spawned thread, repeatedly calling
`try_recv` on the channel, ticking while it is empty and printing its
final message the moment a value arrives.  A schedule is a list of
booleans choosing which thread performs its next step; a thread whose
next step is disabled (the orchestrator blocked in `join`, a finished
thread) makes no progress when chosen. -/

/-- State of the Progress Reporter thread: still spinning, or finished
(its final message printed and the thread function returned). -/
inductive RepState where
  | spinning
  | done
deriving Repr, DecidableEq

/-- The whole two-thread system: the remaining orchestrator actions,
the Reporter state, the channel contents, and the output trace so
far. -/
structure Sys where
  orch : List Ev
  rep : RepState
  chan : List Bool
  out : List Ev
deriving Repr, DecidableEq

/-- One scheduling step.  `pickOrch = true` lets the orchestrator run
its next action (a `join` only proceeds once the Reporter is done);
`pickOrch = false` lets the Reporter run one loop iteration
(`try_recv`: consume a value and print the final message, or tick). -/
def sysStep (sys : Sys) (pickOrch : Bool) : Sys :=
  if pickOrch then
    match sys.orch with
    | [] => sys
    | e :: rest =>
      match e with
      | .joinReporter =>
        if sys.rep = RepState.done then
          { sys with orch := rest, out := sys.out ++ [Ev.joinReporter] }
        else sys
      | .sendSignal b =>
        { sys with orch := rest, chan := sys.chan ++ [b],
                   out := sys.out ++ [Ev.sendSignal b] }
      | _ => { sys with orch := rest, out := sys.out ++ [e] }
  else
    match sys.rep with
    | .done => sys
    | .spinning =>
      match sys.chan with
      | [] => { sys with out := sys.out ++ [Ev.tick] }
      | b :: cs =>
        { sys with rep := .done, chan := cs, out := sys.out ++ [Ev.reporterFinal b] }

/-- Run the system under a schedule. -/
def sysRun (sys : Sys) : List Bool → Sys
  | [] => sys
  | c :: cs => sysRun (sysStep sys c) cs

/-- The initial system for a given orchestrator program: Reporter
freshly spawned and spinning, channel empty, no output yet. -/
def initSys (prog : List Ev) : Sys := ⟨prog, .spinning, [], []⟩

/-- Event ordering in a trace: every occurrence of a `p`-event is
strictly preceded by some `q`-event. -/
def Precedes (q p : Ev → Bool) (tr : List Ev) : Prop :=
  ∀ l1 e l2, tr = l1 ++ e :: l2 → p e = true → ∃ e2 ∈ l1, q e2 = true

/-! ## Concrete sample values used by witnesses and counterexamples -/

/-- A parsed job response reporting `Unknown`. -/
def jvUnknown : JobVerificationResponse := ⟨.unknown, "", "", "", ""⟩

/-- A parsed job response reporting `InProgress`. -/
def jvInProgress : JobVerificationResponse := ⟨.inProgress, "", "", "", ""⟩

/-- A parsed job response reporting `Completed`. -/
def jvCompleted : JobVerificationResponse :=
  ⟨.completed, "", "hashOnChain", "hashExecutable", "https://example/repo"⟩

/-- A `VerifyFromRepo` environment in which every collaborator
succeeds; the on-chain account holds 45 metadata bytes followed by the
same bytes the local file holds. -/
def repoEnvOk : RepoEnv :=
  ⟨.ok "repo", .ok "", .ok "", .ok (), .ok "target/deploy/prog.so",
   .ok [1, 2, 3], .ok (List.replicate 45 0 ++ [1, 2, 3]), .ok ""⟩

/-- A `VerifyFromRepo` environment in which the Docker build fails and
every other collaborator would succeed. -/
def repoEnvBuildFail : RepoEnv :=
  ⟨.ok "repo", .ok "", .ok "", .error "docker build failed",
   .ok "target/deploy/prog.so", .ok [1, 2, 3],
   .ok (List.replicate 45 0 ++ [1, 2, 3]), .ok ""⟩

/-- A `VerifyFromImage` environment in which every collaborator
succeeds; the on-chain bytes after the metadata are `[1, 2]` while the
local file holds `[1, 3]`. -/
def imageEnvMismatch : ImageEnv :=
  ⟨.ok "container", .ok (), .ok [1, 3],
   .ok (List.replicate 45 0 ++ [1, 2]), .ok "", .ok ""⟩

/-- True exactly on the `ok` constructor of `Except`. -/
def exOk {ε α : Type} : Except ε α → Bool
  | .ok _ => true
  | .error _ => false

/-- A conflict payload reporting `is_verified: true` with both hashes. -/
def jConflictVerified : Json :=
  .obj [("is_verified", .bool true), ("on_chain_hash", .str "aaa"),
        ("executable_hash", .str "bbb")]

/-- A poll delivery whose parsed body reports `InProgress`. -/
def ipT : PollTransport := .success (.ok jvInProgress)

/-- A poll delivery whose parsed body reports `Completed`. -/
def compT : PollTransport := .success (.ok jvCompleted)

/-- A `VerifyFromRepo` environment whose fetched account data is only
3 bytes long, shorter than the program-data metadata offset. -/
def repoEnvShort : RepoEnv :=
  ⟨.ok "repo", .ok "", .ok "", .ok (), .ok "p.so", .ok [1], .ok [0, 1, 2], .ok ""⟩

/-- A `VerifyFromImage` environment whose fetched account data is only
3 bytes long, shorter than the program-data metadata offset. -/
def imageEnvShort : ImageEnv :=
  ⟨.ok "c", .ok (), .ok [1], .ok [0, 1, 2], .ok "", .ok ""⟩

/-- The inductive invariant of the two-thread system: the orchestrator
has executed exactly a prefix of its program (the non-Reporter part of
the trace), a non-empty channel means a signal was sent, a finished
Reporter has printed its final message, a performed join means the
Reporter finished, and the three ordering properties hold of the trace
so far. -/
@[reducible] def SysInv (prog : List Ev) (sys : Sys) : Prop :=
  (∃ k, sys.orch = prog.drop k ∧
     sys.out.filter (fun e => !e.isRepEv) = prog.take k) ∧
  (sys.chan ≠ [] → ∃ b, Ev.sendSignal b ∈ sys.out) ∧
  (sys.rep = RepState.done → ∃ b, Ev.reporterFinal b ∈ sys.out) ∧
  (Ev.joinReporter ∈ sys.out → sys.rep = RepState.done) ∧
  Precedes Ev.isTerminalQuery Ev.isSend sys.out ∧
  Precedes Ev.isSend Ev.isRepFinal sys.out ∧
  Precedes Ev.isRepFinal Ev.isPrint sys.out

/-! # Theorems -/

/-! ## Ordering helper lemmas -/

theorem precedes_nil (q p : Ev → Bool) : Precedes q p [] := by
  intro l1 e l2 hd hp
  cases l1 <;> simp at hd

theorem precedes_cons_q (q p : Ev → Bool) (e : Ev) (l : List Ev)
    (hq : q e = true) (hp : p e = false) : Precedes q p (e :: l) := by
  intro l1 x l2 hd hx
  cases l1 with
  | nil =>
    simp only [List.nil_append] at hd
    injection hd with h1 h2
    subst h1
    rw [hp] at hx
    exact Bool.noConfusion hx
  | cons a l1' =>
    injection hd with h1 h2
    exact ⟨a, List.mem_cons_self a l1', by rw [← h1]; exact hq⟩

theorem precedes_cons_neutral (q p : Ev → Bool) (e : Ev) (l : List Ev)
    (hp : p e = false) (h : Precedes q p l) : Precedes q p (e :: l) := by
  intro l1 x l2 hd hx
  cases l1 with
  | nil =>
    simp only [List.nil_append] at hd
    injection hd with h1 h2
    subst h1
    rw [hp] at hx
    exact Bool.noConfusion hx
  | cons a l1' =>
    injection hd with h1 h2
    obtain ⟨e2, he2, hq2⟩ := h l1' x l2 h2 hx
    exact ⟨e2, List.mem_cons_of_mem a he2, hq2⟩

theorem precedes_snoc (q p : Ev → Bool) (l : List Ev) (e : Ev)
    (h : Precedes q p l) (he : p e = true → ∃ e2 ∈ l, q e2 = true) :
    Precedes q p (l ++ [e]) := by
  intro l1 x l2 hd hx
  rcases List.append_eq_append_iff.mp hd with ⟨a', ha1, ha2⟩ | ⟨c', hc1, hc2⟩
  · cases a' with
    | nil =>
      injection ha2 with hxe hl2
      obtain ⟨e2, he2, hq2⟩ := he (by rw [hxe]; exact hx)
      subst ha1
      exact ⟨e2, by simpa using he2, hq2⟩
    | cons a a'' =>
      injection ha2 with h1 h2
      cases a'' <;> simp at h2
  · cases c' with
    | nil =>
      injection hc2 with h1 h2
      obtain ⟨e2, he2, hq2⟩ := he (by rw [← h1]; exact hx)
      rw [List.append_nil] at hc1
      exact ⟨e2, hc1 ▸ he2, hq2⟩
    | cons a c'' =>
      injection hc2 with h1 h2
      subst h1
      exact h l1 x c'' hc1 hx

theorem take_drop_cons {α : Type} (l : List α) (k : Nat) (e : α) (rest : List α)
    (h : l.drop k = e :: rest) :
    l.take (k + 1) = l.take k ++ [e] ∧ l.drop (k + 1) = rest := by
  induction k generalizing l with
  | zero =>
    rw [List.drop_zero] at h
    subst h
    exact ⟨rfl, rfl⟩
  | succ n ihn =>
    cases l with
    | nil => simp at h
    | cons a l' =>
      obtain ⟨h1, h2⟩ := ihn l' h
      constructor
      · rw [List.take_succ_cons, List.take_succ_cons, h1, List.cons_append]
      · rw [List.drop_succ_cons, h2]

theorem isJoin_eq (e : Ev) (h : e.isJoin = true) : e = Ev.joinReporter := by
  cases e <;> simp [Ev.isJoin] at h ⊢

theorem exOk_exists {ε α : Type} {x : Except ε α} (h : exOk x = true) :
    ∃ b, x = .ok b := by
  cases x with
  | error e => simp [exOk] at h
  | ok b => exact ⟨b, rfl⟩

/-! ## Helper lemmas about the hash normalizer -/

theorem dropWhile_append_of_forall (p : Nat → Bool) (xs ys : List Nat)
    (h : ∀ x ∈ xs, p x = true) :
    (xs ++ ys).dropWhile p = ys.dropWhile p := by
  induction xs with
  | nil => rfl
  | cons a as ih =>
    have ha : p a = true := h a (List.mem_cons_self a as)
    simp only [List.cons_append, List.dropWhile_cons, ha, if_true]
    exact ih (fun x hx => h x (List.mem_cons_of_mem a hx))

theorem stripTrailingZeros_append_zeros (B Z : List Nat) (h : ∀ b ∈ Z, b = 0) :
    stripTrailingZeros (B ++ Z) = stripTrailingZeros B := by
  unfold stripTrailingZeros
  rw [List.reverse_append, dropWhile_append_of_forall _ Z.reverse B.reverse ?_]
  intro x hx
  rw [List.mem_reverse] at hx
  simp [h x hx]

/-- C1: the binary digest ignores a trailing all-zero suffix — only the
contiguous trailing run of zero bytes is stripped before SHA-256
hashing — and in particular an all-zero buffer has the digest of the
empty buffer. -/
theorem C1_digest_ignores_trailing_zeros (B Z : List Nat) (h : ∀ b ∈ Z, b = 0) :
    get_binary_hash (B ++ Z) = get_binary_hash B ∧
    get_binary_hash Z = get_binary_hash [] := by
  constructor
  · unfold get_binary_hash
    rw [stripTrailingZeros_append_zeros B Z h]
  · unfold get_binary_hash
    have h2 : stripTrailingZeros Z = stripTrailingZeros [] := by
      simpa using stripTrailingZeros_append_zeros [] Z h
    rw [h2]

/-- Witness for C1 at `B = [1, 2]`, `Z = [0, 0]`. -/
theorem C1_digest_ignores_trailing_zeros_witness :
    (∀ b ∈ ([0, 0] : List Nat), b = 0) ∧
    get_binary_hash ([1, 2] ++ [0, 0]) = get_binary_hash [1, 2] :=
  ⟨by decide, (C1_digest_ignores_trailing_zeros [1, 2] [0, 0] (by decide)).1⟩

/-- C9: in the serialized verification request, the `mount_path` field
is `null` exactly when the relative mount path is the empty string, and
carries the string itself otherwise. -/
theorem C9_mount_path_normalization (repo_url : String) (commit_hash : Option String)
    (program_id : String) (library_name : Option String) (bpf_flag : Bool)
    (relative_mount_path : String) (base_image : Option String)
    (cargo_args : List String) :
    ((verificationRequestJson repo_url commit_hash program_id library_name bpf_flag
        relative_mount_path base_image cargo_args).get "mount_path" = Json.null
      ↔ relative_mount_path = "") ∧
    ((verificationRequestJson repo_url commit_hash program_id library_name bpf_flag
        relative_mount_path base_image cargo_args).get "mount_path" =
        Json.str relative_mount_path
      ↔ relative_mount_path ≠ "") := by
  have hkey : (verificationRequestJson repo_url commit_hash program_id library_name
      bpf_flag relative_mount_path base_image cargo_args).get "mount_path" =
      optStrJson (mount_path_wire relative_mount_path) := by
    simp [verificationRequestJson, Json.get, List.find?]
  rw [hkey]
  by_cases he : relative_mount_path = ""
  · subst he
    have h0 : ("" : String).isEmpty = true := rfl
    simp [mount_path_wire, optStrJson, h0]
  · have hne : relative_mount_path.isEmpty = false := by
      cases hi : relative_mount_path.isEmpty
      · rfl
      · exact absurd ((String.isEmpty_iff relative_mount_path).mp hi) he
    simp [mount_path_wire, optStrJson, hne, he]

/-- C10: every on-chain hash operation slices the fetched account data
at the fixed metadata-size offset without a bounds check — whenever the
fetched data is shorter than that offset and the run reaches the slice,
the operation panics rather than returning an error. -/
theorem C10_short_account_data_panics
    (dataB dataP dataI dataR : List Nat)
    (ep im nw pid spp : String) (envI : ImageEnv) (envR : RepoEnv)
    (hB : dataB.length < size_of_buffer_metadata)
    (hP : dataP.length < size_of_programdata_metadata)
    (hI1 : exOk envI.dockerRun = true) (hI2 : exOk envI.dockerCp = true)
    (hI3 : exOk envI.fileRead = true)
    (hIa : envI.accountData = .ok dataI)
    (hIlen : dataI.length < size_of_programdata_metadata)
    (hR1 : exOk envR.basenameResult = true) (hR2 : exOk envR.cloneResult = true)
    (hR3 : exOk envR.cdResult = true) (hR4 : exOk envR.buildResult = true)
    (hR5 : exOk envR.findResult = true) (hR6 : exOk envR.fileRead = true)
    (hRa : envR.accountData = .ok dataR)
    (hRlen : dataR.length < size_of_programdata_metadata) :
    (get_buffer_hash_cmd (.ok dataB)).2.isPanics = true ∧
    (get_program_hash_cmd (.ok dataP)).2.isPanics = true ∧
    (verify_from_image ep im nw pid envI).2.isPanics = true ∧
    (verify_from_repo spp envR).2.isPanics = true := by
  refine ⟨?_, ?_, ?_, ?_⟩
  · simp [get_buffer_hash_cmd, sliceFrom, Nat.not_le.mpr hB, Outcome.isPanics]
  · simp [get_program_hash_cmd, sliceFrom, Nat.not_le.mpr hP, Outcome.isPanics]
  · obtain ⟨v1, e1⟩ := exOk_exists hI1
    obtain ⟨v2, e2⟩ := exOk_exists hI2
    obtain ⟨v3, e3⟩ := exOk_exists hI3
    simp [verify_from_image, e1, e2, e3, hIa, sliceFrom, Nat.not_le.mpr hIlen,
      Outcome.isPanics]
  · obtain ⟨w1, f1⟩ := exOk_exists hR1
    obtain ⟨w2, f2⟩ := exOk_exists hR2
    obtain ⟨w3, f3⟩ := exOk_exists hR3
    obtain ⟨w4, f4⟩ := exOk_exists hR4
    obtain ⟨w5, f5⟩ := exOk_exists hR5
    obtain ⟨w6, f6⟩ := exOk_exists hR6
    simp [verify_from_repo, f1, f2, f3, f4, f5, f6, hRa, sliceFrom,
      Nat.not_le.mpr hRlen, Outcome.isPanics]

/-- Witness for C10 at 1-byte and 3-byte account data. -/
theorem C10_short_account_data_panics_witness :
    (get_buffer_hash_cmd (.ok [0])).2.isPanics = true ∧
    (get_program_hash_cmd (.ok [0])).2.isPanics = true ∧
    (verify_from_image "ep" "im" "nw" "pid" imageEnvShort).2.isPanics = true ∧
    (verify_from_repo "spp" repoEnvShort).2.isPanics = true :=
  C10_short_account_data_panics [0] [0] [0, 1, 2] [0, 1, 2] "ep" "im" "nw" "pid" "spp"
    imageEnvShort repoEnvShort (by decide) (by decide) rfl rfl rfl rfl (by decide)
    rfl rfl rfl rfl rfl rfl rfl (by decide)

/-- C3: in the local verification pipelines (`VerifyFromRepo` and
`verify_from_image`), once every collaborator step succeeds, the run
ends in the `Executable hash mismatch` error exactly when the digest of
the sliced on-chain data differs from the digest of the local file, and
succeeds exactly when they agree. -/
theorem C3_mismatch_iff_digests_differ
    (spp ep im nw pid : String) (envR : RepoEnv) (envI : ImageEnv)
    (fileR dataR fileI dataI : List Nat)
    (hR1 : exOk envR.basenameResult = true) (hR2 : exOk envR.cloneResult = true)
    (hR3 : exOk envR.cdResult = true) (hR4 : exOk envR.buildResult = true)
    (hR5 : exOk envR.findResult = true) (hRf : envR.fileRead = .ok fileR)
    (hRa : envR.accountData = .ok dataR) (hRrm : exOk envR.rmResult = true)
    (hRlen : size_of_programdata_metadata ≤ dataR.length)
    (hI1 : exOk envI.dockerRun = true) (hI2 : exOk envI.dockerCp = true)
    (hIf : envI.fileRead = .ok fileI) (hIa : envI.accountData = .ok dataI)
    (hIk : exOk envI.dockerKill = true) (hIr : exOk envI.rmFile = true)
    (hIlen : size_of_programdata_metadata ≤ dataI.length) :
    ((verify_from_repo spp envR).2 = .ok (.error "Executable hash mismatch") ↔
      get_binary_hash (dataR.drop size_of_programdata_metadata) ≠ get_binary_hash fileR) ∧
    ((verify_from_repo spp envR).2 = .ok (.ok ()) ↔
      get_binary_hash (dataR.drop size_of_programdata_metadata) = get_binary_hash fileR) ∧
    ((verify_from_image ep im nw pid envI).2 = .ok (.error "Executable hash mismatch") ↔
      get_binary_hash (dataI.drop size_of_programdata_metadata) ≠ get_binary_hash fileI) ∧
    ((verify_from_image ep im nw pid envI).2 = .ok (.ok ()) ↔
      get_binary_hash (dataI.drop size_of_programdata_metadata) = get_binary_hash fileI) := by
  obtain ⟨w1, f1⟩ := exOk_exists hR1
  obtain ⟨w2, f2⟩ := exOk_exists hR2
  obtain ⟨w3, f3⟩ := exOk_exists hR3
  obtain ⟨w4, f4⟩ := exOk_exists hR4
  obtain ⟨w5, f5⟩ := exOk_exists hR5
  obtain ⟨w6, f6⟩ := exOk_exists hRrm
  obtain ⟨v1, e1⟩ := exOk_exists hI1
  obtain ⟨v2, e2⟩ := exOk_exists hI2
  obtain ⟨v3, e3⟩ := exOk_exists hIk
  obtain ⟨v4, e4⟩ := exOk_exists hIr
  refine ⟨?_, ?_, ?_, ?_⟩
  · by_cases hq : get_binary_hash (dataR.drop size_of_programdata_metadata) =
      get_binary_hash fileR
    · simp [verify_from_repo, f1, f2, f3, f4, f5, f6, hRf, hRa, sliceFrom, hRlen, hq]
    · simp [verify_from_repo, f1, f2, f3, f4, f5, f6, hRf, hRa, sliceFrom, hRlen, hq]
  · by_cases hq : get_binary_hash (dataR.drop size_of_programdata_metadata) =
      get_binary_hash fileR
    · simp [verify_from_repo, f1, f2, f3, f4, f5, f6, hRf, hRa, sliceFrom, hRlen, hq]
    · simp [verify_from_repo, f1, f2, f3, f4, f5, f6, hRf, hRa, sliceFrom, hRlen, hq]
  · by_cases hq : get_binary_hash (dataI.drop size_of_programdata_metadata) =
      get_binary_hash fileI
    · simp [verify_from_image, e1, e2, e3, e4, hIf, hIa, sliceFrom, hIlen, hq]
    · simp [verify_from_image, e1, e2, e3, e4, hIf, hIa, sliceFrom, hIlen, hq]
  · by_cases hq : get_binary_hash (dataI.drop size_of_programdata_metadata) =
      get_binary_hash fileI
    · simp [verify_from_image, e1, e2, e3, e4, hIf, hIa, sliceFrom, hIlen, hq]
    · simp [verify_from_image, e1, e2, e3, e4, hIf, hIa, sliceFrom, hIlen, hq]

/-- Witness for C3: a fully-successful repo run whose on-chain bytes
(after the metadata) match the local file, and an image run over
on-chain `[1, 2]` against file `[1, 3]` (the mismatch
scenario). -/
theorem C3_mismatch_iff_digests_differ_witness :
    ((verify_from_repo "program" repoEnvOk).2 = .ok (.error "Executable hash mismatch") ↔
      get_binary_hash ((List.replicate 45 0 ++ [1, 2, 3]).drop size_of_programdata_metadata)
        ≠ get_binary_hash [1, 2, 3]) ∧
    ((verify_from_repo "program" repoEnvOk).2 = .ok (.ok ()) ↔
      get_binary_hash ((List.replicate 45 0 ++ [1, 2, 3]).drop size_of_programdata_metadata)
        = get_binary_hash [1, 2, 3]) ∧
    ((verify_from_image "ep" "im" "nw" "pid" imageEnvMismatch).2 =
        .ok (.error "Executable hash mismatch") ↔
      get_binary_hash ((List.replicate 45 0 ++ [1, 2]).drop size_of_programdata_metadata)
        ≠ get_binary_hash [1, 3]) ∧
    ((verify_from_image "ep" "im" "nw" "pid" imageEnvMismatch).2 = .ok (.ok ()) ↔
      get_binary_hash ((List.replicate 45 0 ++ [1, 2]).drop size_of_programdata_metadata)
        = get_binary_hash [1, 3]) :=
  C3_mismatch_iff_digests_differ "program" "ep" "im" "nw" "pid" repoEnvOk imageEnvMismatch
    [1, 2, 3] (List.replicate 45 0 ++ [1, 2, 3]) [1, 3] (List.replicate 45 0 ++ [1, 2])
    rfl rfl rfl rfl rfl rfl rfl rfl (by decide)
    rfl rfl rfl rfl rfl rfl (by decide)

/-- C4 counterexample: a poll result with status `Unknown` carries a
payload (`respose` is `Some`), although the claim requires the payload
to be absent for `Unknown`. -/
theorem C4_counterexample :
    (check_job_status (.success (.ok jvUnknown))).2 =
      .ok (.ok ⟨JobStatus.unknown, some jvUnknown⟩) ∧
    (some jvUnknown).isSome = true ∧
    JobStatus.unknown ≠ JobStatus.completed ∧
    JobStatus.unknown ≠ JobStatus.failed :=
  ⟨rfl, rfl, by decide, by decide⟩

/-- C4 amended: the job outcome payload of a poll result is present
exactly when the status is not `InProgress` — `Completed`, `Failed` and
`Unknown` all carry it, only `InProgress` does not. -/
theorem C4_amended (t : PollTransport) (jr : JobResponse)
    (h : (check_job_status t).2 = .ok (.ok jr)) :
    jr.respose.isSome = true ↔ jr.status ≠ JobStatus.inProgress := by
  cases t with
  | sendFailure m => simp [check_job_status] at h
  | httpError body => simp [check_job_status] at h
  | success p =>
    cases p with
    | error e => simp [check_job_status] at h
    | ok r =>
      cases r with
      | mk st msg och exh ru =>
        cases st <;> simp [check_job_status] at h <;> simp [← h]

/-- Witness for C4 amended at a `Completed` poll delivery. -/
theorem C4_amended_witness :
    (JobResponse.mk JobStatus.completed (some jvCompleted)).respose.isSome = true ↔
      (JobResponse.mk JobStatus.completed (some jvCompleted)).status ≠
        JobStatus.inProgress :=
  C4_amended (.success (.ok jvCompleted)) ⟨.completed, some jvCompleted⟩ rfl

/-- C7 counterexample: a transport-level failure of the status-query
send makes `check_job_status` panic (the `unwrap` on `send()`), so the
run aborts instead of surfacing an error result to the caller. -/
theorem C7_counterexample :
    (check_job_status (.sendFailure "connection error")).2 = .panics "connection error" ∧
    (check_job_status (.sendFailure "connection error")).2.isPanics = true ∧
    (check_job_status (.sendFailure "connection error")).2.isErrResult = false :=
  ⟨rfl, rfl, rfl⟩

/-- C7 amended: a transport send failure panics the process (no retry);
a body read/parse failure or a non-success HTTP status terminates the
whole job with an error result carrying a message (no retry); and every
status query issues exactly one request. -/
theorem C7_amended :
    (∀ m, (check_job_status (.sendFailure m)).2 = .panics m) ∧
    (∀ e, (check_job_status (.success (.error e))).2 = .ok (.error e)) ∧
    (∀ body, (check_job_status (.httpError body)).2 =
      .ok (.error ("Encountered an error while attempting to check job status : " ++ body))) ∧
    (∀ t, (check_job_status t).1.countP Ev.isQuery = 1) ∧
    (∀ pid m rest, poll_loop pid (.sendFailure m :: rest) =
      ([Ev.query none], some (.panics m))) ∧
    (∀ pid e rest, poll_loop pid (.success (.error e) :: rest) =
      ([Ev.query none], some (.ok (.error e)))) := by
  refine ⟨fun m => rfl, fun e => rfl, fun body => rfl, ?_,
    fun pid m rest => rfl, fun pid e rest => rfl⟩
  intro t
  cases t with
  | sendFailure m => rfl
  | httpError body => rfl
  | success p =>
    cases p with
    | error e => rfl
    | ok r =>
      cases r with
      | mk st msg och exh ru => cases st <;> rfl

/-- C2 counterexample: a 409 conflict whose body is not valid JSON
makes the submit operation return an error result, not success. -/
theorem C2_counterexample :
    send_job_to_remote "PID" (.conflict409 (.error "expected value at line 1 column 1")) =
      ([], some (.ok (.error "expected value at line 1 column 1"))) ∧
    (send_job_to_remote "PID"
        (.conflict409 (.error "expected value at line 1 column 1"))).2 ≠
      some (.ok (.ok ())) :=
  ⟨rfl, by simp [send_job_to_remote]⟩

/-- C2 amended: for a 409 conflict whose body parses as JSON the
operation returns success, issues no poll request, and interprets the
payload in exactly the four claimed ways; only an unparseable body is
surfaced as an error (still without polling). -/
theorem C2_amended (pid : String) (j : Json) :
    (send_job_to_remote pid (.conflict409 (.ok j))).2 = some (.ok (.ok ())) ∧
    (send_job_to_remote pid (.conflict409 (.ok j))).1.countP Ev.isQuery = 0 ∧
    ((j.get "is_verified").asBool = some true →
      Ev.print ("On Chain Hash: " ++ ((j.get "on_chain_hash").asStr.getD "")) ∈
        (send_job_to_remote pid (.conflict409 (.ok j))).1 ∧
      Ev.print ("Executable Hash: " ++ ((j.get "executable_hash").asStr.getD "")) ∈
        (send_job_to_remote pid (.conflict409 (.ok j))).1) ∧
    ((j.get "is_verified").asBool = some false →
      Ev.print ("Program " ++ pid ++ " has not been verified. ❌") ∈
        (send_job_to_remote pid (.conflict409 (.ok j))).1 ∧
      Ev.print "This request has already been processed." ∈
        (send_job_to_remote pid (.conflict409 (.ok j))).1) ∧
    ((j.get "is_verified").asBool = none → (j.get "status").eqStr "error" = true →
      (send_job_to_remote pid (.conflict409 (.ok j))).1 =
        [Ev.print ("Error message: " ++ ((j.get "error").asStr.getD ""))]) ∧
    ((j.get "is_verified").asBool = none → (j.get "status").eqStr "error" = false →
      (send_job_to_remote pid (.conflict409 (.ok j))).1 =
        [Ev.print "This request has already been processed."]) := by
  cases hb : (j.get "is_verified").asBool with
  | none =>
    by_cases hs : (j.get "status").eqStr "error" = true
    · simp [send_job_to_remote, hb, hs, Ev.isQuery]
    · simp only [Bool.not_eq_true] at hs
      simp [send_job_to_remote, hb, hs, Ev.isQuery]
  | some b =>
    cases b <;> simp [send_job_to_remote, hb, Ev.isQuery]

/-- Witness for C2 amended at a conflict payload with
`is_verified: true`. -/
theorem C2_amended_witness :
    (send_job_to_remote "PID" (.conflict409 (.ok jConflictVerified))).2 =
      some (.ok (.ok ())) ∧
    Ev.print ("On Chain Hash: " ++ ((jConflictVerified.get "on_chain_hash").asStr.getD ""))
      ∈ (send_job_to_remote "PID" (.conflict409 (.ok jConflictVerified))).1 :=
  ⟨(C2_amended "PID" jConflictVerified).1,
   ((C2_amended "PID" jConflictVerified).2.2.1 rfl).1⟩

/-- C6 counterexample: when the Docker build fails, the `VerifyFromRepo`
run exits with the build error without ever removing the temporary
clone directory. -/
theorem C6_counterexample :
    Ev.rmTempDir ∉ (verify_from_repo "program" repoEnvBuildFail).1 ∧
    (verify_from_repo "program" repoEnvBuildFail).2 = .ok (.error "docker build failed") := by
  exact ⟨by decide, rfl⟩

/-- C6 amended: the temporary clone directory removal is reached
exactly on the runs where `basename`, clone, `cd`, the build, the
`find`, the local file read and the RPC fetch all succeed and the
account data is long enough to slice — i.e. on the success and
hash-mismatch paths — and is skipped on every earlier failure path. -/
theorem C6_amended (spp : String) (env : RepoEnv) :
    Ev.rmTempDir ∈ (verify_from_repo spp env).1 ↔
      (exOk env.basenameResult = true ∧ exOk env.cloneResult = true ∧
       exOk env.cdResult = true ∧ exOk env.buildResult = true ∧
       exOk env.findResult = true ∧ exOk env.fileRead = true ∧
       ∃ data, env.accountData = .ok data ∧
         size_of_programdata_metadata ≤ data.length) := by
  obtain ⟨b, c, cd, bd, fd, fr, ad, rm⟩ := env
  cases b with
  | error e => simp [verify_from_repo, exOk]
  | ok vb =>
  cases c with
  | error e => simp [verify_from_repo, exOk]
  | ok vc =>
  cases cd with
  | error e => simp [verify_from_repo, exOk]
  | ok vcd =>
  cases bd with
  | error e => simp [verify_from_repo, exOk]
  | ok vbd =>
  cases fd with
  | error e => simp [verify_from_repo, exOk]
  | ok vfd =>
  cases fr with
  | error e => simp [verify_from_repo, exOk]
  | ok vfr =>
  cases ad with
  | error e => simp [verify_from_repo, exOk]
  | ok data =>
  by_cases hl : size_of_programdata_metadata ≤ data.length
  · cases rm with
    | error e => simp [verify_from_repo, exOk, sliceFrom, hl]
    | ok vrm =>
      by_cases hq : get_binary_hash (data.drop size_of_programdata_metadata) =
        get_binary_hash vfr
      · simp [verify_from_repo, exOk, sliceFrom, hl, hq]
      · simp [verify_from_repo, exOk, sliceFrom, hl, hq]
  · simp [verify_from_repo, exOk, sliceFrom, hl]

/-! ## Helper lemmas about the polling trace -/

theorem afterIPsegs_cons_ip (l : List Ev) :
    afterIPsegs (Ev.query (some JobStatus.inProgress) :: l) =
      l.takeWhile (fun e => !e.isQuery) :: afterIPsegs l := rfl

theorem afterIPsegs_cons_of_not_ip (e : Ev) (l : List Ev)
    (he : e ≠ Ev.query (some JobStatus.inProgress)) :
    afterIPsegs (e :: l) = afterIPsegs l := by
  cases e with
  | query st =>
    cases st with
    | none => rfl
    | some s =>
      cases s with
      | inProgress => exact absurd rfl he
      | completed => rfl
      | failed => rfl
      | unknown => rfl
  | sleep n => rfl
  | sendSignal b => rfl
  | joinReporter => rfl
  | reporterFinal b => rfl
  | tick => rfl
  | print s => rfl
  | rmTempDir => rfl

theorem poll_loop_head (pid : String) (script : List PollTransport) :
    (poll_loop pid script).1 = [] ∨
      ∃ st tl, (poll_loop pid script).1 = Ev.query st :: tl := by
  cases script with
  | nil => exact Or.inl rfl
  | cons t rest =>
    right
    cases t with
    | sendFailure m => exact ⟨none, _, rfl⟩
    | httpError body => exact ⟨none, _, rfl⟩
    | success p =>
      cases p with
      | error e => exact ⟨none, _, rfl⟩
      | ok r =>
        obtain ⟨st, msg, och, exh, ru⟩ := r
        cases st with
        | inProgress => exact ⟨some .inProgress, _, rfl⟩
        | completed => exact ⟨some .completed, _, rfl⟩
        | failed => exact ⟨some .failed, _, rfl⟩
        | unknown => exact ⟨some .unknown, _, rfl⟩

theorem poll_trace_takeWhile (pid : String) (script : List PollTransport) :
    ((poll_loop pid script).1).takeWhile (fun e => !e.isQuery) = [] := by
  rcases poll_loop_head pid script with h | ⟨st, tl, h⟩
  · rw [h]; rfl
  · rw [h]
    simp [List.takeWhile_cons, Ev.isQuery]

/-- C5 counterexample: after a status query reports `InProgress`, the
trace contains two rest intervals (5 s inside `check_job_status`, 10 s
in the polling loop) before the next query — not exactly one. -/
theorem C5_counterexample :
    afterIPsegs (poll_loop "PID" [ipT, compT]).1 =
      [[Ev.sleep 5000, Ev.sleep 10000]] ∧
    ¬ (∀ seg ∈ afterIPsegs (poll_loop "PID" [ipT, compT]).1,
        (seg.filter Ev.isSleep).length = 1) := by
  exact ⟨rfl, by decide⟩

/-- C5 amended: whenever a status query reports `InProgress`, the
poller rests exactly twice before the next query is issued — a fixed
5-second rest inside the status query followed by a fixed 10-second
rest in the polling loop. -/
theorem C5_amended (pid : String) (script : List PollTransport) (seg : List Ev)
    (h : seg ∈ afterIPsegs (poll_loop pid script).1) :
    seg = [Ev.sleep 5000, Ev.sleep 10000] := by
  induction script with
  | nil => exact absurd (h : seg ∈ ([] : List (List Ev))) (List.not_mem_nil seg)
  | cons t rest ih =>
    cases t with
    | sendFailure m =>
      exact absurd (h : seg ∈ ([] : List (List Ev))) (List.not_mem_nil seg)
    | httpError body =>
      exact absurd (h : seg ∈ ([] : List (List Ev))) (List.not_mem_nil seg)
    | success p =>
      cases p with
      | error e =>
        exact absurd (h : seg ∈ ([] : List (List Ev))) (List.not_mem_nil seg)
      | ok r =>
        obtain ⟨st, msg, och, exh, ru⟩ := r
        cases st with
        | inProgress =>
          have htr : (poll_loop pid
              (PollTransport.success (.ok ⟨.inProgress, msg, och, exh, ru⟩) :: rest)).1 =
              Ev.query (some .inProgress) :: Ev.sleep 5000 :: Ev.sleep 10000 ::
                (poll_loop pid rest).1 := rfl
          rw [htr, afterIPsegs_cons_ip, List.mem_cons] at h
          rcases h with h1 | h2
          · rw [h1]
            show Ev.sleep 5000 :: Ev.sleep 10000 ::
              ((poll_loop pid rest).1).takeWhile (fun e => !e.isQuery) = _
            rw [poll_trace_takeWhile pid rest]
          · exact ih h2
        | completed => exact absurd (h : seg ∈ ([] : List (List Ev))) (List.not_mem_nil seg)
        | failed => exact absurd (h : seg ∈ ([] : List (List Ev))) (List.not_mem_nil seg)
        | unknown => exact absurd (h : seg ∈ ([] : List (List Ev))) (List.not_mem_nil seg)

/-- Witness for C5 amended on the script `InProgress` then
`Completed`. -/
theorem C5_amended_witness :
    [Ev.sleep 5000, Ev.sleep 10000] ∈ afterIPsegs (poll_loop "PID" [ipT, compT]).1 ∧
    ([Ev.sleep 5000, Ev.sleep 10000] : List Ev) = [Ev.sleep 5000, Ev.sleep 10000] :=
  ⟨by decide,
   C5_amended "PID" [ipT, compT] [Ev.sleep 5000, Ev.sleep 10000] (by decide)⟩

theorem poll_loop_no_rep_events (pid : String) (script : List PollTransport) :
    ∀ e ∈ (poll_loop pid script).1, e.isRepEv = false := by
  induction script with
  | nil =>
    intro e he
    exact absurd (he : e ∈ ([] : List Ev)) (List.not_mem_nil e)
  | cons t rest ih =>
    intro e he
    cases t with
    | sendFailure m =>
      have he2 : e ∈ [Ev.query none] := he
      simp at he2
      rw [he2]; rfl
    | httpError body =>
      have he2 : e ∈ [Ev.query none] := he
      simp at he2
      rw [he2]; rfl
    | success p =>
      cases p with
      | error err =>
        have he2 : e ∈ [Ev.query none] := he
        simp at he2
        rw [he2]; rfl
      | ok r =>
        obtain ⟨st, msg, och, exh, ru⟩ := r
        cases st with
        | inProgress =>
          have he2 : e ∈ Ev.query (some .inProgress) :: Ev.sleep 5000 ::
              Ev.sleep 10000 :: (poll_loop pid rest).1 := he
          simp only [List.mem_cons] at he2
          rcases he2 with rfl | rfl | rfl | he3
          · rfl
          · rfl
          · rfl
          · exact ih e he3
        | completed =>
          have he2 : e ∈ [Ev.query (some .completed), Ev.sendSignal true,
              Ev.joinReporter,
              Ev.print ("Program " ++ pid ++ " has been successfully verified. ✅"),
              Ev.print "\nThe provided GitHub build matches the on-chain hash:",
              Ev.print ("On Chain Hash: " ++ och),
              Ev.print ("Executable Hash: " ++ exh),
              Ev.print ("Repo URL: " ++ ru)] := he
          simp only [List.mem_cons, List.not_mem_nil, or_false] at he2
          rcases he2 with rfl | rfl | rfl | rfl | rfl | rfl | rfl | rfl <;> rfl
        | failed =>
          have he2 : e ∈ [Ev.query (some .failed), Ev.sendSignal false,
              Ev.joinReporter,
              Ev.print ("Program " ++ pid ++ " has not been verified. ❌"),
              Ev.print ("Error message: " ++ msg)] := he
          simp only [List.mem_cons, List.not_mem_nil, or_false] at he2
          rcases he2 with rfl | rfl | rfl | rfl | rfl <;> rfl
        | unknown =>
          have he2 : e ∈ [Ev.query (some .unknown), Ev.sendSignal false,
              Ev.joinReporter,
              Ev.print ("Program " ++ pid ++ " has not been verified. ❌")] := he
          simp only [List.mem_cons, List.not_mem_nil, or_false] at he2
          rcases he2 with rfl | rfl | rfl | rfl <;> rfl

theorem poll_loop_tq_before_send (pid : String) (script : List PollTransport) :
    Precedes Ev.isTerminalQuery Ev.isSend (poll_loop pid script).1 := by
  induction script with
  | nil => exact precedes_nil _ _
  | cons t rest ih =>
    cases t with
    | sendFailure m =>
      exact precedes_cons_neutral _ _ _ _ rfl (precedes_nil _ _)
    | httpError body =>
      exact precedes_cons_neutral _ _ _ _ rfl (precedes_nil _ _)
    | success p =>
      cases p with
      | error err =>
        exact precedes_cons_neutral _ _ _ _ rfl (precedes_nil _ _)
      | ok r =>
        obtain ⟨st, msg, och, exh, ru⟩ := r
        cases st with
        | inProgress =>
          show Precedes Ev.isTerminalQuery Ev.isSend
            (Ev.query (some .inProgress) :: Ev.sleep 5000 :: Ev.sleep 10000 ::
              (poll_loop pid rest).1)
          exact precedes_cons_neutral _ _ _ _ rfl
            (precedes_cons_neutral _ _ _ _ rfl
              (precedes_cons_neutral _ _ _ _ rfl ih))
        | completed => exact precedes_cons_q _ _ _ _ rfl rfl
        | failed => exact precedes_cons_q _ _ _ _ rfl rfl
        | unknown => exact precedes_cons_q _ _ _ _ rfl rfl

theorem poll_loop_join_before_print (pid : String) (script : List PollTransport) :
    Precedes Ev.isJoin Ev.isPrint (poll_loop pid script).1 := by
  induction script with
  | nil => exact precedes_nil _ _
  | cons t rest ih =>
    cases t with
    | sendFailure m =>
      exact precedes_cons_neutral _ _ _ _ rfl (precedes_nil _ _)
    | httpError body =>
      exact precedes_cons_neutral _ _ _ _ rfl (precedes_nil _ _)
    | success p =>
      cases p with
      | error err =>
        exact precedes_cons_neutral _ _ _ _ rfl (precedes_nil _ _)
      | ok r =>
        obtain ⟨st, msg, och, exh, ru⟩ := r
        cases st with
        | inProgress =>
          show Precedes Ev.isJoin Ev.isPrint
            (Ev.query (some .inProgress) :: Ev.sleep 5000 :: Ev.sleep 10000 ::
              (poll_loop pid rest).1)
          exact precedes_cons_neutral _ _ _ _ rfl
            (precedes_cons_neutral _ _ _ _ rfl
              (precedes_cons_neutral _ _ _ _ rfl ih))
        | completed =>
          exact precedes_cons_neutral _ _ _ _ rfl
            (precedes_cons_neutral _ _ _ _ rfl (precedes_cons_q _ _ _ _ rfl rfl))
        | failed =>
          exact precedes_cons_neutral _ _ _ _ rfl
            (precedes_cons_neutral _ _ _ _ rfl (precedes_cons_q _ _ _ _ rfl rfl))
        | unknown =>
          exact precedes_cons_neutral _ _ _ _ rfl
            (precedes_cons_neutral _ _ _ _ rfl (precedes_cons_q _ _ _ _ rfl rfl))

theorem sysStep_inv (prog : List Ev) (sys : Sys) (c : Bool)
    (hrep : ∀ e ∈ prog, e.isRepEv = false)
    (htq : Precedes Ev.isTerminalQuery Ev.isSend prog)
    (hjp : Precedes Ev.isJoin Ev.isPrint prog)
    (hinv : SysInv prog sys) : SysInv prog (sysStep sys c) := by
  obtain ⟨orch, rep, chan, out⟩ := sys
  obtain ⟨⟨k, hk1, hk2⟩, hchan, hrepd, hjoin, htqs, hsrf, hrfp⟩ := hinv
  cases c with
  | false =>
    cases rep with
    | done =>
      exact ⟨⟨k, hk1, hk2⟩, hchan, hrepd, hjoin, htqs, hsrf, hrfp⟩
    | spinning =>
      cases chan with
      | nil =>
        show SysInv prog (⟨orch, .spinning, [], out ++ [Ev.tick]⟩ : Sys)
        refine ⟨⟨k, hk1, ?_⟩, ?_, ?_, ?_, ?_, ?_, ?_⟩
        · rw [List.filter_append, hk2]
          simp [Ev.isRepEv]
        · intro hne; exact absurd rfl hne
        · intro hd; exact RepState.noConfusion hd
        · intro hj
          rcases List.mem_append.mp hj with h1 | h2
          · exact hjoin h1
          · simp at h2
        · exact precedes_snoc _ _ _ _ htqs (fun hc => Bool.noConfusion hc)
        · exact precedes_snoc _ _ _ _ hsrf (fun hc => Bool.noConfusion hc)
        · exact precedes_snoc _ _ _ _ hrfp (fun hc => Bool.noConfusion hc)
      | cons b cs =>
        show SysInv prog (⟨orch, .done, cs, out ++ [Ev.reporterFinal b]⟩ : Sys)
        refine ⟨⟨k, hk1, ?_⟩, ?_, ?_, ?_, ?_, ?_, ?_⟩
        · rw [List.filter_append, hk2]
          simp [Ev.isRepEv]
        · intro hne
          obtain ⟨b2, hb2⟩ := hchan (by simp)
          exact ⟨b2, List.mem_append_left _ hb2⟩
        · intro _
          exact ⟨b, List.mem_append_right _ (by simp)⟩
        · intro _; rfl
        · exact precedes_snoc _ _ _ _ htqs (fun hc => Bool.noConfusion hc)
        · refine precedes_snoc _ _ _ _ hsrf (fun _ => ?_)
          obtain ⟨b2, hb2⟩ := hchan (by simp)
          exact ⟨Ev.sendSignal b2, hb2, rfl⟩
        · exact precedes_snoc _ _ _ _ hrfp (fun hc => Bool.noConfusion hc)
  | true =>
    cases orch with
    | nil =>
      exact ⟨⟨k, hk1, hk2⟩, hchan, hrepd, hjoin, htqs, hsrf, hrfp⟩
    | cons e rest =>
      have hdk : prog.drop k = e :: rest := hk1.symm
      obtain ⟨htk, hdk2⟩ := take_drop_cons prog k e rest hdk
      have hmem : e ∈ prog :=
        List.mem_of_mem_drop (by rw [hdk]; exact List.mem_cons_self e rest)
      have hrepe : e.isRepEv = false := hrep e hmem
      have hdecomp : prog = prog.take k ++ e :: rest := by
        conv_lhs => rw [← List.take_append_drop k prog]
        rw [hdk]
      cases e with
      | reporterFinal b2 => simp [Ev.isRepEv] at hrepe
      | tick => simp [Ev.isRepEv] at hrepe
      | joinReporter =>
        cases rep with
        | spinning =>
          show SysInv prog (⟨Ev.joinReporter :: rest, .spinning, chan, out⟩ : Sys)
          exact ⟨⟨k, hk1, hk2⟩, hchan, hrepd, hjoin, htqs, hsrf, hrfp⟩
        | done =>
          show SysInv prog (⟨rest, .done, chan, out ++ [Ev.joinReporter]⟩ : Sys)
          refine ⟨⟨k + 1, hdk2.symm, ?_⟩, ?_, ?_, ?_, ?_, ?_, ?_⟩
          · rw [List.filter_append, hk2, htk]
            simp [Ev.isRepEv]
          · intro hne; obtain ⟨b2, hb2⟩ := hchan hne
            exact ⟨b2, List.mem_append_left _ hb2⟩
          · intro _
            obtain ⟨b2, hb2⟩ := hrepd rfl
            exact ⟨b2, List.mem_append_left _ hb2⟩
          · intro _; rfl
          · exact precedes_snoc _ _ _ _ htqs (fun hc => Bool.noConfusion hc)
          · exact precedes_snoc _ _ _ _ hsrf (fun hc => Bool.noConfusion hc)
          · exact precedes_snoc _ _ _ _ hrfp (fun hc => Bool.noConfusion hc)
      | sendSignal b =>
        show SysInv prog (⟨rest, rep, chan ++ [b], out ++ [Ev.sendSignal b]⟩ : Sys)
        refine ⟨⟨k + 1, hdk2.symm, ?_⟩, ?_, ?_, ?_, ?_, ?_, ?_⟩
        · rw [List.filter_append, hk2, htk]
          simp [Ev.isRepEv]
        · intro _; exact ⟨b, List.mem_append_right _ (by simp)⟩
        · intro hd; obtain ⟨b2, hb2⟩ := hrepd hd
          exact ⟨b2, List.mem_append_left _ hb2⟩
        · intro hj
          rcases List.mem_append.mp hj with h1 | h2
          · exact hjoin h1
          · simp at h2
        · refine precedes_snoc _ _ _ _ htqs (fun _ => ?_)
          obtain ⟨e2, he2, hq2⟩ := htq (prog.take k) _ rest hdecomp rfl
          rw [← hk2] at he2
          exact ⟨e2, List.mem_of_mem_filter he2, hq2⟩
        · exact precedes_snoc _ _ _ _ hsrf (fun hc => Bool.noConfusion hc)
        · exact precedes_snoc _ _ _ _ hrfp (fun hc => Bool.noConfusion hc)
      | print s =>
        show SysInv prog (⟨rest, rep, chan, out ++ [Ev.print s]⟩ : Sys)
        refine ⟨⟨k + 1, hdk2.symm, ?_⟩, ?_, ?_, ?_, ?_, ?_, ?_⟩
        · rw [List.filter_append, hk2, htk]
          simp [Ev.isRepEv]
        · intro hne; obtain ⟨b2, hb2⟩ := hchan hne
          exact ⟨b2, List.mem_append_left _ hb2⟩
        · intro hd; obtain ⟨b2, hb2⟩ := hrepd hd
          exact ⟨b2, List.mem_append_left _ hb2⟩
        · intro hj
          rcases List.mem_append.mp hj with h1 | h2
          · exact hjoin h1
          · simp at h2
        · exact precedes_snoc _ _ _ _ htqs (fun hc => Bool.noConfusion hc)
        · exact precedes_snoc _ _ _ _ hsrf (fun hc => Bool.noConfusion hc)
        · refine precedes_snoc _ _ _ _ hrfp (fun _ => ?_)
          obtain ⟨e2, he2, hq2⟩ := hjp (prog.take k) _ rest hdecomp rfl
          have he2' : e2 = Ev.joinReporter := isJoin_eq e2 hq2
          subst he2'
          rw [← hk2] at he2
          obtain ⟨b2, hb2⟩ := hrepd (hjoin (List.mem_of_mem_filter he2))
          exact ⟨Ev.reporterFinal b2, hb2, rfl⟩
      | query st =>
        show SysInv prog (⟨rest, rep, chan, out ++ [Ev.query st]⟩ : Sys)
        refine ⟨⟨k + 1, hdk2.symm, ?_⟩, ?_, ?_, ?_, ?_, ?_, ?_⟩
        · rw [List.filter_append, hk2, htk]
          simp [Ev.isRepEv]
        · intro hne; obtain ⟨b2, hb2⟩ := hchan hne
          exact ⟨b2, List.mem_append_left _ hb2⟩
        · intro hd; obtain ⟨b2, hb2⟩ := hrepd hd
          exact ⟨b2, List.mem_append_left _ hb2⟩
        · intro hj
          rcases List.mem_append.mp hj with h1 | h2
          · exact hjoin h1
          · simp at h2
        · exact precedes_snoc _ _ _ _ htqs (fun hc => Bool.noConfusion hc)
        · exact precedes_snoc _ _ _ _ hsrf (fun hc => Bool.noConfusion hc)
        · exact precedes_snoc _ _ _ _ hrfp (fun hc => Bool.noConfusion hc)
      | sleep n =>
        show SysInv prog (⟨rest, rep, chan, out ++ [Ev.sleep n]⟩ : Sys)
        refine ⟨⟨k + 1, hdk2.symm, ?_⟩, ?_, ?_, ?_, ?_, ?_, ?_⟩
        · rw [List.filter_append, hk2, htk]
          simp [Ev.isRepEv]
        · intro hne; obtain ⟨b2, hb2⟩ := hchan hne
          exact ⟨b2, List.mem_append_left _ hb2⟩
        · intro hd; obtain ⟨b2, hb2⟩ := hrepd hd
          exact ⟨b2, List.mem_append_left _ hb2⟩
        · intro hj
          rcases List.mem_append.mp hj with h1 | h2
          · exact hjoin h1
          · simp at h2
        · exact precedes_snoc _ _ _ _ htqs (fun hc => Bool.noConfusion hc)
        · exact precedes_snoc _ _ _ _ hsrf (fun hc => Bool.noConfusion hc)
        · exact precedes_snoc _ _ _ _ hrfp (fun hc => Bool.noConfusion hc)
      | rmTempDir =>
        show SysInv prog (⟨rest, rep, chan, out ++ [Ev.rmTempDir]⟩ : Sys)
        refine ⟨⟨k + 1, hdk2.symm, ?_⟩, ?_, ?_, ?_, ?_, ?_, ?_⟩
        · rw [List.filter_append, hk2, htk]
          simp [Ev.isRepEv]
        · intro hne; obtain ⟨b2, hb2⟩ := hchan hne
          exact ⟨b2, List.mem_append_left _ hb2⟩
        · intro hd; obtain ⟨b2, hb2⟩ := hrepd hd
          exact ⟨b2, List.mem_append_left _ hb2⟩
        · intro hj
          rcases List.mem_append.mp hj with h1 | h2
          · exact hjoin h1
          · simp at h2
        · exact precedes_snoc _ _ _ _ htqs (fun hc => Bool.noConfusion hc)
        · exact precedes_snoc _ _ _ _ hsrf (fun hc => Bool.noConfusion hc)
        · exact precedes_snoc _ _ _ _ hrfp (fun hc => Bool.noConfusion hc)

theorem sysRun_inv (prog : List Ev)
    (hrep : ∀ e ∈ prog, e.isRepEv = false)
    (htq : Precedes Ev.isTerminalQuery Ev.isSend prog)
    (hjp : Precedes Ev.isJoin Ev.isPrint prog) :
    ∀ (sched : List Bool) (sys : Sys), SysInv prog sys →
      SysInv prog (sysRun sys sched) := by
  intro sched
  induction sched with
  | nil => intro sys h; exact h
  | cons c cs ih =>
    intro sys h
    exact ih _ (sysStep_inv prog sys c hrep htq hjp h)

theorem sysInit_inv (prog : List Ev) : SysInv prog (initSys prog) := by
  refine ⟨⟨0, rfl, rfl⟩, ?_, ?_, ?_, precedes_nil _ _, precedes_nil _ _, precedes_nil _ _⟩
  · intro hne; exact absurd rfl hne
  · intro hd; exact RepState.noConfusion hd
  · intro hj; exact absurd hj (List.not_mem_nil _)

/-- C8: under every schedule of the two threads, the output trace keeps
the claimed order — every terminal signal send is preceded by a status
query that observed a terminal `JobStatus`, the final Reporter
message is only printed after the signal was sent, and (because the
orchestrator fully joins the Reporter before reporting) every
orchestrator report line comes after the final Reporter message. -/
theorem C8_reporter_ordering (pid : String) (script : List PollTransport)
    (sched : List Bool) :
    Precedes Ev.isTerminalQuery Ev.isSend
      (sysRun (initSys (poll_loop pid script).1) sched).out ∧
    Precedes Ev.isSend Ev.isRepFinal
      (sysRun (initSys (poll_loop pid script).1) sched).out ∧
    Precedes Ev.isRepFinal Ev.isPrint
      (sysRun (initSys (poll_loop pid script).1) sched).out := by
  have h := sysRun_inv (poll_loop pid script).1
    (poll_loop_no_rep_events pid script)
    (poll_loop_tq_before_send pid script)
    (poll_loop_join_before_print pid script)
    sched (initSys (poll_loop pid script).1)
    (sysInit_inv (poll_loop pid script).1)
  exact ⟨h.2.2.2.2.1, h.2.2.2.2.2.1, h.2.2.2.2.2.2⟩

/-- Witness for C8 on a one-poll `Completed` script under a concrete
schedule that interleaves Reporter ticks with the orchestrator. -/
theorem C8_reporter_ordering_witness :
    Precedes Ev.isTerminalQuery Ev.isSend
      (sysRun (initSys (poll_loop "PID" [compT]).1)
        [false, true, true, false, true, true, true, true, true, true]).out ∧
    Precedes Ev.isSend Ev.isRepFinal
      (sysRun (initSys (poll_loop "PID" [compT]).1)
        [false, true, true, false, true, true, true, true, true, true]).out ∧
    Precedes Ev.isRepFinal Ev.isPrint
      (sysRun (initSys (poll_loop "PID" [compT]).1)
        [false, true, true, false, true, true, true, true, true, true]).out :=
  C8_reporter_ordering "PID" [compT]
    [false, true, true, false, true, true, true, true, true, true]

end SolanaVerify

